import Mathlib

/-!
Verification of the code-action adapter
(`src/lib/adapters/code-action-adapter.js`).

The adapter is embedded shallowly: the JavaScript class with its two static
methods `canAdapt` and `getCodeActions` becomes a pair of pure Lean
functions.  Effects are made explicit:

* the RPC connection is an oracle `CodeActionRequest → List Command`
  together with a recorded trace of outbound RPC calls;
* the diagnostic-code cache is a function
  `TextEditor → AtomRange → String → Option String`, and every lookup made
  against it is recorded in a trace of `CacheQuery` values;
* the `invariant(...)` precondition failure is an `Except.error` carrying a
  `PreconditionViolation`;
* the native diagnostics the caller passed in are threaded through to an
  explicit after-state (`finalDiagnostics`), so frame properties about
  mutation of the inputs can be stated.

The JavaScript value stored in `serverCapabilities.codeActionProvider` is
modelled by `CapValue`, rich enough to distinguish the strict comparison
`=== true` (used by `canAdapt`) from JavaScript truthiness (used by the
`invariant` call inside `getCodeActions`).
-/

/-- A JavaScript value as far as the `codeActionProvider` field is concerned:
`undefined`, `null`, a boolean, a number, a string, or an object (identified
by a tag so distinct objects can be told apart). -/
inductive CapValue where
  | undefined : CapValue
  | null : CapValue
  | boolean : Bool → CapValue
  | number : Int → CapValue
  | string : String → CapValue
  | object : Nat → CapValue
deriving DecidableEq, Repr

/-- JavaScript truthiness: `undefined`, `null`, `false`, `0` and `""` are
falsy; every other value (including every object) is truthy.  This is the
test applied by `invariant(serverCapabilities.codeActionProvider, ...)`. -/
def CapValue.truthy : CapValue → Bool
  | .undefined => false
  | .null => false
  | .boolean b => b
  | .number n => n != 0
  | .string s => s != ""
  | .object _ => true

/-- The server capability descriptor; the only field the adapter reads is
`codeActionProvider`. -/
structure ServerCapabilities where
  codeActionProvider : CapValue
deriving DecidableEq, Repr

/-- `CodeActionAdapter.canAdapt` (source lines 12-14):
`serverCapabilities.codeActionProvider === true`.  The strict equality
`=== true` holds exactly for the boolean value `true`, which the match
captures. -/
def canAdapt (serverCapabilities : ServerCapabilities) : Bool :=
  match serverCapabilities.codeActionProvider with
  | CapValue.boolean true => true
  | _ => false

/-- An Atom text editor, reduced to the data the adapter passes around:
an identity and the URI that the document-identifier conversion reads. -/
structure TextEditor where
  id : Nat
  uri : String
deriving DecidableEq, Repr

/-- An Atom buffer range (start and end position, row/column). -/
structure AtomRange where
  startRow : Nat
  startCol : Nat
  endRow : Nat
  endCol : Nat
deriving DecidableEq, Repr

/-- A host-native (atom-ide) diagnostic: a possibly-absent range, a
possibly-absent message text, and a file path standing for the remaining
fields the adapter never touches.  The native form does not carry the
wire-protocol `code`. -/
structure AtomDiagnostic where
  range : Option AtomRange
  text : Option String
  filePath : String
deriving DecidableEq, Repr

/-- An LSP wire range. -/
structure LSRange where
  startLine : Nat
  startCharacter : Nat
  endLine : Nat
  endCharacter : Nat
deriving DecidableEq, Repr

/-- An LSP text-document identifier. -/
structure TextDocumentIdentifier where
  uri : String
deriving DecidableEq, Repr

/-- An LSP wire diagnostic: the structurally converted native payload plus
the optional `code` field that reconciliation may fill in. -/
structure LSDiagnostic where
  content : AtomDiagnostic
  code : Option String
deriving DecidableEq, Repr

/-- Modelled from the spec: `Convert.editorToTextDocumentIdentifier`
(`src/lib/convert.js` is not part of the sources).  Section 6 of the spec
lists it as the opaque structural conversion
`toDocumentIdentifier(documentRef) -> wireDocumentIdentifier`; we model it
as reading the editor's URI. -/
def editorToTextDocumentIdentifier (editor : TextEditor) : TextDocumentIdentifier :=
  { uri := editor.uri }

/-- Modelled from the spec: `Convert.atomRangeToLSRange`
(`src/lib/convert.js` is not part of the sources).  Section 6 of the spec
lists it as the opaque structural conversion
`toWireRange(range) -> wireRange`; we model it positionally. -/
def atomRangeToLSRange (range : AtomRange) : LSRange :=
  { startLine := range.startRow
    startCharacter := range.startCol
    endLine := range.endRow
    endCharacter := range.endCol }

/-- Modelled from the spec: `Convert.atomIdeDiagnosticToLSDiagnostic`
(`src/lib/convert.js` is not part of the sources).  Section 6 lists it as
the opaque conversion `toWireDiagnostic(nativeDiagnostic) -> wireDiagnostic`,
and sections 4.2/8 state that the `code` field is attached only by the
reconciliation step, never by the conversion itself; so the model carries
the native payload over verbatim and leaves `code` unset. -/
def atomIdeDiagnosticToLSDiagnostic (diagnostic : AtomDiagnostic) : LSDiagnostic :=
  { content := diagnostic, code := none }

/-- The diagnostic-code cache collaborator (`linterAdapter.getDiagnosticCode`):
a lookup from (editor, range, text) to an optional code. -/
abbrev CodeCache : Type :=
  TextEditor → AtomRange → String → Option String

/-- A recorded lookup against the diagnostic-code cache. -/
structure CacheQuery where
  editor : TextEditor
  range : AtomRange
  text : String
deriving DecidableEq, Repr

/-- An argument value inside a `Command`'s argument list. -/
inductive JsArg where
  | jnum : Int → JsArg
  | jstr : String → JsArg
deriving DecidableEq, Repr

/-- An LSP `Command` returned by the `codeAction` request: an opaque command
name, an argument list and a display title. -/
structure Command where
  command : String
  arguments : List JsArg
  title : String
deriving DecidableEq, Repr

/-- The `codeAction` request payload built by `getCodeActions`
(source lines 40-57): converted document identifier, converted range, and a
context holding the reconciled wire diagnostics. -/
structure CodeActionRequest where
  textDocument : TextDocumentIdentifier
  range : LSRange
  contextDiagnostics : List LSDiagnostic
deriving DecidableEq, Repr

/-- The `executeCommand` request payload issued by a host action's `apply`
(source lines 61-64). -/
structure ExecuteCommandParams where
  command : String
  arguments : List JsArg
deriving DecidableEq, Repr

/-- An outbound RPC call on the connection. -/
inductive RpcCall where
  | codeAction : CodeActionRequest → RpcCall
  | executeCommand : ExecuteCommandParams → RpcCall
deriving DecidableEq, Repr

/-- The error thrown by `invariant(...)` when the capability precondition
fails. -/
structure PreconditionViolation where
  message : String
deriving DecidableEq, Repr

/-- The message of the `invariant` call at source line 39. -/
def invariantMessage : String :=
  "Must have the textDocument/codeAction capability"

/-- A host-native code action (atomIde$CodeAction): the object literal built
at source lines 58-69 closes over exactly the immutable `command` (and the
connection); it has no mutable state of its own. -/
structure CodeAction where
  command : Command
deriving DecidableEq, Repr

/-- The trace of RPC calls issued by one call to `apply()` (source lines
59-64): a single `executeCommand` carrying the closed-over command's name
and argument list verbatim. -/
def CodeAction.invokeTrace (action : CodeAction) : List RpcCall :=
  [RpcCall.executeCommand
    { command := action.command.command, arguments := action.command.arguments }]

/-- The cumulative RPC trace of `n` successive calls to `apply()` on the
same action.  Because the closure captures no mutable state, each call
contributes its own `invokeTrace` independently of how many calls came
before. -/
def CodeAction.invokeSeq (action : CodeAction) : Nat → List RpcCall
  | 0 => []
  | n + 1 => action.invokeSeq n ++ action.invokeTrace

/-- `getTitle()` (source lines 65-67): `Promise.resolve(command.title)`, an
already-resolved value. -/
def CodeAction.getTitle (action : CodeAction) : String :=
  action.command.title

/-- `dispose()` (source line 68): an empty body.  Modelled as a state
transformer on the action's captured state paired with the RPC calls it
issues: the state comes back unchanged and no call is made. -/
def CodeAction.dispose (action : CodeAction) : CodeAction × List RpcCall :=
  (action, [])

/-- The per-diagnostic body of the `diagnostics.map` at source lines 43-55:
convert the native diagnostic, and when both its `range` and `text` are
non-null query the cache and, when the lookup yields a non-null code, set it
on the converted wire diagnostic.  Returns the cache lookups performed
together with the resulting wire diagnostic. -/
def reconcileDiagnostic (cache : CodeCache) (editor : TextEditor)
    (diagnostic : AtomDiagnostic) : List CacheQuery × LSDiagnostic :=
  let converted := atomIdeDiagnosticToLSDiagnostic diagnostic
  match diagnostic.range, diagnostic.text with
  | some r, some t =>
    match cache editor r t with
    | some code => ([{ editor := editor, range := r, text := t }], { converted with code := some code })
    | none => ([{ editor := editor, range := r, text := t }], converted)
  | _, _ => ([], converted)

/-- The wire diagnostics placed in the request context: the input list
mapped through `reconcileDiagnostic` (source lines 43-55). -/
def wireDiagnostics (cache : CodeCache) (editor : TextEditor)
    (diagnostics : List AtomDiagnostic) : List LSDiagnostic :=
  diagnostics.map (fun d => (reconcileDiagnostic cache editor d).2)

/-- All cache lookups performed while building the request context, in
input order. -/
def cacheQueriesOf (cache : CodeCache) (editor : TextEditor)
    (diagnostics : List AtomDiagnostic) : List CacheQuery :=
  (diagnostics.map (fun d => (reconcileDiagnostic cache editor d).1)).flatten

/-- The `codeAction` request built at source lines 40-57. -/
def codeActionRequest (cache : CodeCache) (editor : TextEditor)
    (range : AtomRange) (diagnostics : List AtomDiagnostic) : CodeActionRequest :=
  { textDocument := editorToTextDocumentIdentifier editor
    range := atomRangeToLSRange range
    contextDiagnostics := wireDiagnostics cache editor diagnostics }

/-- Everything observable about one call to `getCodeActions`: the cache
lookups and RPC calls it performed, the native diagnostics list as it stands
after the call, and either the produced actions or the thrown
`PreconditionViolation`. -/
structure OrchestratorOutcome where
  cacheQueries : List CacheQuery
  rpcCalls : List RpcCall
  finalDiagnostics : List AtomDiagnostic
  result : Except PreconditionViolation (List CodeAction)

/-- `CodeActionAdapter.getCodeActions` (source lines 28-70).  In source
order: if `linterAdapter == null` return `[]` (lines 35-37); then
`invariant(serverCapabilities.codeActionProvider, ...)` (line 39) — a
JavaScript truthiness test; then build the request, mapping each diagnostic
through conversion and cache reconciliation (lines 40-57); await the
`codeAction` RPC; and map each returned command to a host action object
(lines 58-69).  The connection's `codeAction` method is the oracle
`codeActionResponse`; the native diagnostics are threaded through unchanged
because the only assignment in the source (`converted.code = code`,
line 52) targets the freshly converted wire object. -/
def getCodeActions (codeActionResponse : CodeActionRequest → List Command)
    (serverCapabilities : ServerCapabilities)
    (linterAdapter : Option CodeCache) (editor : TextEditor)
    (range : AtomRange) (diagnostics : List AtomDiagnostic) :
    OrchestratorOutcome :=
  match linterAdapter with
  | none =>
    { cacheQueries := []
      rpcCalls := []
      finalDiagnostics := diagnostics
      result := Except.ok [] }
  | some cache =>
    if serverCapabilities.codeActionProvider.truthy then
      let request := codeActionRequest cache editor range diagnostics
      let commands := codeActionResponse request
      { cacheQueries := cacheQueriesOf cache editor diagnostics
        rpcCalls := [RpcCall.codeAction request]
        finalDiagnostics := diagnostics
        result := Except.ok (commands.map CodeAction.mk) }
    else
      { cacheQueries := []
        rpcCalls := []
        finalDiagnostics := diagnostics
        result := Except.error { message := invariantMessage } }

/-! Concrete sample inputs, used by the witness theorems below. -/

/-- A sample editor. -/
def sampleEditor : TextEditor := { id := 1, uri := "file:///a.js" }

/-- A sample request range. -/
def sampleRange : AtomRange := { startRow := 0, startCol := 0, endRow := 1, endCol := 5 }

/-- The range of the sample diagnostic. -/
def sampleDiagnosticRange : AtomRange := { startRow := 0, startCol := 2, endRow := 0, endCol := 7 }

/-- A diagnostic with both range and text present. -/
def sampleDiagnostic : AtomDiagnostic :=
  { range := some sampleDiagnosticRange, text := some "T", filePath := "a.js" }

/-- A diagnostic whose range is absent (never queried against the cache). -/
def sampleDiagnosticNoRange : AtomDiagnostic :=
  { range := none, text := some "U", filePath := "a.js" }

/-- A sample diagnostics list. -/
def sampleDiags : List AtomDiagnostic := [sampleDiagnostic, sampleDiagnosticNoRange]

/-- A sample cache that knows the code "E042" for the sample diagnostic. -/
def sampleCache : CodeCache :=
  fun _ r t => if r = sampleDiagnosticRange ∧ t = "T" then some "E042" else none

/-- The sample commands the connection answers with. -/
def sampleCommands : List Command :=
  [{ command := "fix.a", arguments := [JsArg.jnum 1], title := "Fix A" },
   { command := "fix.b", arguments := [], title := "Fix B" }]

/-- A sample connection oracle answering every request with `sampleCommands`. -/
def sampleResponse : CodeActionRequest → List Command := fun _ => sampleCommands

/-- Capabilities with code actions fully enabled. -/
def sampleCaps : ServerCapabilities := { codeActionProvider := CapValue.boolean true }

/-- Capabilities whose provider field is a (truthy) options object — not the
boolean `true`. -/
def objectCaps : ServerCapabilities := { codeActionProvider := CapValue.object 0 }

/-- Capabilities with the provider field `false`. -/
def falseCaps : ServerCapabilities := { codeActionProvider := CapValue.boolean false }

/-- Claim C2: `canAdapt c` returns `true` exactly when `c.codeActionProvider`
is the boolean value `true`; every other value (absent/undefined, null,
false, a number, a string, or an object) yields `false`.  `canAdapt` is a
pure total Lean function, so it has no side effects. -/
theorem canAdapt_iff_exactly_true (c : ServerCapabilities) :
    canAdapt c = true ↔ c.codeActionProvider = CapValue.boolean true := by
  obtain ⟨v⟩ := c
  cases v with
  | undefined => simp [canAdapt]
  | null => simp [canAdapt]
  | boolean b => cases b <;> simp [canAdapt]
  | number n => simp [canAdapt]
  | string s => simp [canAdapt]
  | object o => simp [canAdapt]

/-- Claim C3: with an absent (`none`) linterAdapter, `getCodeActions`
resolves to the empty action list, performs no cache lookup and issues no
RPC call, for any connection, capabilities, editor, range and diagnostics. -/
theorem getCodeActions_absent_cache
    (codeActionResponse : CodeActionRequest → List Command)
    (serverCapabilities : ServerCapabilities) (editor : TextEditor)
    (range : AtomRange) (diagnostics : List AtomDiagnostic) :
    getCodeActions codeActionResponse serverCapabilities none editor range diagnostics =
      { cacheQueries := [], rpcCalls := [], finalDiagnostics := diagnostics,
        result := Except.ok [] } := rfl

/-- Claim C9: the absent-cache check precedes the capability precondition:
for every capabilities descriptor (including ones whose provider field is
not the boolean `true`), calling with a `none` cache resolves to the empty
list and never produces a `PreconditionViolation` error. -/
theorem absentCache_overrides_capability_gate
    (codeActionResponse : CodeActionRequest → List Command)
    (serverCapabilities : ServerCapabilities) (editor : TextEditor)
    (range : AtomRange) (diagnostics : List AtomDiagnostic) :
    (getCodeActions codeActionResponse serverCapabilities none editor range diagnostics).result
        = Except.ok [] ∧
    ∀ e : PreconditionViolation,
      (getCodeActions codeActionResponse serverCapabilities none editor range diagnostics).result
        ≠ Except.error e := by
  refine ⟨rfl, fun e h => ?_⟩
  simp [getCodeActions] at h

/-- Claim C7: each call to a produced action's `apply` issues exactly one
`executeCommand` RPC carrying the original command's name and argument list
verbatim; the trace of `n + 1` calls extends the trace of `n` calls by
exactly that one call, for every `n` (no memoization, no already-invoked
guard). -/
theorem invoke_issues_one_fresh_call (c : Command) (n : Nat) :
    CodeAction.invokeSeq { command := c } (n + 1)
        = CodeAction.invokeSeq { command := c } n
          ++ [RpcCall.executeCommand { command := c.command, arguments := c.arguments }] ∧
    CodeAction.invokeTrace { command := c }
        = [RpcCall.executeCommand { command := c.command, arguments := c.arguments }] :=
  ⟨rfl, rfl⟩

/-- Claim C8: `dispose` on any produced action is a total no-op — it never
raises (it is a total function), issues no RPC call, leaves the action's
state unchanged, and subsequent `apply`/`getTitle` behave exactly as
before. -/
theorem dispose_is_noop (c : Command) :
    CodeAction.dispose { command := c } = ({ command := c }, []) ∧
    CodeAction.invokeTrace (CodeAction.dispose { command := c }).1
        = CodeAction.invokeTrace { command := c } ∧
    CodeAction.getTitle (CodeAction.dispose { command := c }).1
        = CodeAction.getTitle { command := c } :=
  ⟨rfl, rfl, rfl⟩

/-- Claim C10: `getCodeActions` never mutates its inputs: the native
diagnostics list after any call equals the input list, and the reconciled
code is written only onto the freshly converted wire diagnostic, whose
carried native content still equals the input diagnostic. -/
theorem no_mutation_of_inputs
    (codeActionResponse : CodeActionRequest → List Command)
    (serverCapabilities : ServerCapabilities)
    (linterAdapter : Option CodeCache) (editor : TextEditor)
    (range : AtomRange) (diagnostics : List AtomDiagnostic) :
    (getCodeActions codeActionResponse serverCapabilities linterAdapter editor range
        diagnostics).finalDiagnostics = diagnostics ∧
    ∀ (cache : CodeCache) (d : AtomDiagnostic),
      (reconcileDiagnostic cache editor d).2.content = d := by
  constructor
  · cases linterAdapter with
    | none => rfl
    | some cache =>
      by_cases h : serverCapabilities.codeActionProvider.truthy <;>
        simp [getCodeActions, h]
  · intro cache d
    unfold reconcileDiagnostic
    cases hr : d.range with
    | none => cases ht : d.text <;> simp [hr, ht, atomIdeDiagnosticToLSDiagnostic]
    | some r =>
      cases ht : d.text with
      | none => simp [hr, ht, atomIdeDiagnosticToLSDiagnostic]
      | some t =>
        cases hc : cache editor r t <;> simp [hr, ht, hc, atomIdeDiagnosticToLSDiagnostic]

/-- Claim C1, counterexample: with `codeActionProvider` a truthy options
object (not the boolean `true`) and a non-null cache, `getCodeActions` does
NOT raise a `PreconditionViolation` — it resolves normally and issues the
`codeAction` RPC, because the source's `invariant` tests JavaScript
truthiness, not strict equality with `true`. -/
theorem capability_gate_counterexample :
    objectCaps.codeActionProvider ≠ CapValue.boolean true ∧
    (getCodeActions sampleResponse objectCaps (some sampleCache) sampleEditor sampleRange
        []).result = Except.ok (sampleCommands.map CodeAction.mk) ∧
    (getCodeActions sampleResponse objectCaps (some sampleCache) sampleEditor sampleRange
        []).rpcCalls
      = [RpcCall.codeAction (codeActionRequest sampleCache sampleEditor sampleRange [])] :=
  ⟨by decide, rfl, rfl⟩

/-- Claim C1 as amended: with a non-null cache, `getCodeActions` raises the
`PreconditionViolation` — before any cache lookup or RPC call — exactly when
`codeActionProvider` is falsy under JavaScript truthiness (undefined, null,
false, 0, or the empty string); a truthy non-`true` value passes the
check. -/
theorem capability_gate_truthiness
    (codeActionResponse : CodeActionRequest → List Command)
    (serverCapabilities : ServerCapabilities) (cache : CodeCache)
    (editor : TextEditor) (range : AtomRange) (diagnostics : List AtomDiagnostic)
    (h : serverCapabilities.codeActionProvider.truthy = false) :
    getCodeActions codeActionResponse serverCapabilities (some cache) editor range
        diagnostics =
      { cacheQueries := [], rpcCalls := [], finalDiagnostics := diagnostics,
        result := Except.error { message := invariantMessage } } := by
  simp [getCodeActions, h]

/-- Claim C1 witness: the amended theorem applied at `codeActionProvider`
equal to the boolean `false`. -/
theorem capability_gate_truthiness_witness :
    falseCaps.codeActionProvider.truthy = false ∧
    getCodeActions sampleResponse falseCaps (some sampleCache) sampleEditor sampleRange
        sampleDiags =
      { cacheQueries := [], rpcCalls := [], finalDiagnostics := sampleDiags,
        result := Except.error { message := invariantMessage } } :=
  ⟨rfl, capability_gate_truthiness sampleResponse falseCaps sampleCache sampleEditor
    sampleRange sampleDiags rfl⟩

/-- Claim C4: when the capability precondition passes, the single RPC issued
is the `codeAction` request whose context diagnostics have the same length
as the input list, the entry at every index `i` being the converted (and
cache-reconciled) form of the native diagnostic at index `i` — same order,
one-to-one. -/
theorem request_wire_diagnostics_order
    (codeActionResponse : CodeActionRequest → List Command)
    (serverCapabilities : ServerCapabilities) (cache : CodeCache)
    (editor : TextEditor) (range : AtomRange) (diagnostics : List AtomDiagnostic)
    (hcap : serverCapabilities.codeActionProvider.truthy = true) :
    (getCodeActions codeActionResponse serverCapabilities (some cache) editor range
        diagnostics).rpcCalls
      = [RpcCall.codeAction (codeActionRequest cache editor range diagnostics)] ∧
    (codeActionRequest cache editor range diagnostics).contextDiagnostics.length
      = diagnostics.length ∧
    ∀ i : Nat,
      (codeActionRequest cache editor range diagnostics).contextDiagnostics[i]?
        = (diagnostics[i]?).map (fun d => (reconcileDiagnostic cache editor d).2) := by
  refine ⟨?_, ?_, ?_⟩
  · simp [getCodeActions, hcap]
  · simp [codeActionRequest, wireDiagnostics]
  · intro i
    simp [codeActionRequest, wireDiagnostics]

/-- Claim C4 witness: the order theorem applied at the sample inputs. -/
theorem request_wire_diagnostics_order_witness :
    sampleCaps.codeActionProvider.truthy = true ∧
    ((getCodeActions sampleResponse sampleCaps (some sampleCache) sampleEditor sampleRange
        sampleDiags).rpcCalls
      = [RpcCall.codeAction (codeActionRequest sampleCache sampleEditor sampleRange
          sampleDiags)] ∧
    (codeActionRequest sampleCache sampleEditor sampleRange
        sampleDiags).contextDiagnostics.length = sampleDiags.length ∧
    ∀ i : Nat,
      (codeActionRequest sampleCache sampleEditor sampleRange
          sampleDiags).contextDiagnostics[i]?
        = (sampleDiags[i]?).map (fun d => (reconcileDiagnostic sampleCache sampleEditor d).2)) :=
  ⟨rfl, request_wire_diagnostics_order sampleResponse sampleCaps sampleCache sampleEditor
    sampleRange sampleDiags rfl⟩

/-- Claim C5: when the capability precondition passes, the cache lookups of
a run are exactly those performed while reconciling, and per native
diagnostic: the cache is queried (with the editor, the diagnostic's range
and its text) exactly when both range and text are non-null, the wire
diagnostic's `code` field then equals whatever the lookup returned (present
or absent), and when no query is made the `code` field stays unset. -/
theorem reconciliation_correctness
    (codeActionResponse : CodeActionRequest → List Command)
    (serverCapabilities : ServerCapabilities) (cache : CodeCache)
    (editor : TextEditor) (range : AtomRange) (diagnostics : List AtomDiagnostic)
    (hcap : serverCapabilities.codeActionProvider.truthy = true) :
    (getCodeActions codeActionResponse serverCapabilities (some cache) editor range
        diagnostics).cacheQueries = cacheQueriesOf cache editor diagnostics ∧
    ∀ d : AtomDiagnostic,
      (∀ r t, d.range = some r → d.text = some t →
        (reconcileDiagnostic cache editor d).1
            = [{ editor := editor, range := r, text := t }] ∧
        (reconcileDiagnostic cache editor d).2.code = cache editor r t) ∧
      ((d.range = none ∨ d.text = none) →
        (reconcileDiagnostic cache editor d).1 = [] ∧
        (reconcileDiagnostic cache editor d).2.code = none) := by
  constructor
  · simp [getCodeActions, hcap]
  · intro d
    constructor
    · intro r t hr ht
      cases hc : cache editor r t <;>
        simp [reconcileDiagnostic, hr, ht, hc, atomIdeDiagnosticToLSDiagnostic]
    · intro h
      cases hr : d.range with
      | none =>
        cases ht : d.text <;>
          simp [reconcileDiagnostic, hr, ht, atomIdeDiagnosticToLSDiagnostic]
      | some r =>
        cases ht : d.text with
        | none => simp [reconcileDiagnostic, hr, ht, atomIdeDiagnosticToLSDiagnostic]
        | some t => rcases h with h | h <;> simp_all

/-- Claim C5 witness: the reconciliation theorem applied at the sample
inputs, where the cache answers "E042" for the sample diagnostic. -/
theorem reconciliation_correctness_witness :
    sampleCaps.codeActionProvider.truthy = true ∧
    ((getCodeActions sampleResponse sampleCaps (some sampleCache) sampleEditor sampleRange
        sampleDiags).cacheQueries = cacheQueriesOf sampleCache sampleEditor sampleDiags ∧
    ∀ d : AtomDiagnostic,
      (∀ r t, d.range = some r → d.text = some t →
        (reconcileDiagnostic sampleCache sampleEditor d).1
            = [{ editor := sampleEditor, range := r, text := t }] ∧
        (reconcileDiagnostic sampleCache sampleEditor d).2.code = sampleCache sampleEditor r t) ∧
      ((d.range = none ∨ d.text = none) →
        (reconcileDiagnostic sampleCache sampleEditor d).1 = [] ∧
        (reconcileDiagnostic sampleCache sampleEditor d).2.code = none)) :=
  ⟨rfl, reconciliation_correctness sampleResponse sampleCaps sampleCache sampleEditor
    sampleRange sampleDiags rfl⟩

/-- Claim C6: when the capability precondition passes, the result is the
response command list mapped to actions — same length, same order — and the
action at every index `i` has the title of the command at index `i`. -/
theorem response_mapping_titles
    (codeActionResponse : CodeActionRequest → List Command)
    (serverCapabilities : ServerCapabilities) (cache : CodeCache)
    (editor : TextEditor) (range : AtomRange) (diagnostics : List AtomDiagnostic)
    (hcap : serverCapabilities.codeActionProvider.truthy = true) :
    (getCodeActions codeActionResponse serverCapabilities (some cache) editor range
        diagnostics).result
      = Except.ok ((codeActionResponse (codeActionRequest cache editor range
          diagnostics)).map CodeAction.mk) ∧
    ((codeActionResponse (codeActionRequest cache editor range diagnostics)).map
        CodeAction.mk).length
      = (codeActionResponse (codeActionRequest cache editor range diagnostics)).length ∧
    ∀ i : Nat,
      (((codeActionResponse (codeActionRequest cache editor range diagnostics)).map
          CodeAction.mk)[i]?).map CodeAction.getTitle
        = ((codeActionResponse (codeActionRequest cache editor range
            diagnostics))[i]?).map Command.title := by
  refine ⟨?_, by simp, ?_⟩
  · simp [getCodeActions, hcap]
  · intro i
    cases h : (codeActionResponse (codeActionRequest cache editor range diagnostics))[i]? <;>
      simp [h, CodeAction.getTitle]

/-- Claim C6 witness: the mapping theorem applied at the sample inputs,
where the connection answers with commands titled "Fix A" and "Fix B". -/
theorem response_mapping_titles_witness :
    sampleCaps.codeActionProvider.truthy = true ∧
    ((getCodeActions sampleResponse sampleCaps (some sampleCache) sampleEditor sampleRange
        sampleDiags).result
      = Except.ok ((sampleResponse (codeActionRequest sampleCache sampleEditor sampleRange
          sampleDiags)).map CodeAction.mk) ∧
    ((sampleResponse (codeActionRequest sampleCache sampleEditor sampleRange
        sampleDiags)).map CodeAction.mk).length
      = (sampleResponse (codeActionRequest sampleCache sampleEditor sampleRange
          sampleDiags)).length ∧
    ∀ i : Nat,
      (((sampleResponse (codeActionRequest sampleCache sampleEditor sampleRange
          sampleDiags)).map CodeAction.mk)[i]?).map CodeAction.getTitle
        = ((sampleResponse (codeActionRequest sampleCache sampleEditor sampleRange
            sampleDiags))[i]?).map Command.title) :=
  ⟨rfl, response_mapping_titles sampleResponse sampleCaps sampleCache sampleEditor
    sampleRange sampleDiags rfl⟩
